import Mathlib

/-!
Shallow embedding of the MartinAskestad/LISP interpreter (Rust sources:
`lexer.rs`, `parser.rs`, `value.rs`, `environment.rs`, `program.rs`).

Modelling conventions:
* `f64` numbers are modelled as `Rat`; every input appearing in the claims
  stays within the range where `f64` arithmetic is exact, so rational
  arithmetic coincides with the Rust float arithmetic there.
* Rust `Result<_, String>` becomes the `err` constructor of an outcome type;
  Rust panics (`unwrap` on `None`, out-of-range indexing, out-of-range
  slicing) become the distinguished `panic` outcome.
* The shared mutable `Rc<RefCell<Environment>>` chain is modelled as an
  explicit list of frames (head = current frame) threaded through every
  evaluation step; `Environment::set` writes only into the head frame,
  mirroring the Rust code.
* All recursive functions consume explicit fuel, decremented on every call;
  `timeout` marks fuel exhaustion (an artefact of the embedding, reachable
  only for fuel values smaller than the recursion depth of the program).
-/

namespace Lisp

/-- `Token` from `lexer.rs`. -/
inductive Token where
  | number (n : Rat)
  | symbol (s : String)
  | lparen
  | rparen
deriving DecidableEq, Repr

/-- `Value` from `value.rs`. -/
inductive Value where
  | number (n : Rat)
  | symbol (s : String)
  | list (l : List Value)
  | nil
  | lambda (args : List String) (body : List Value)

/-- One scope frame: the `vars` HashMap of `Environment`, as an association
list where the most recent insertion shadows older ones (first match wins on
lookup, like `HashMap::insert` followed by `HashMap::get`). -/
abbrev Frame := List (String × Value)

/-- The parent chain of `Environment`s: head is the current frame, the tail
its ancestors. -/
abbrev Env := List Frame

/-- `HashMap::insert`: the new binding shadows any older one. -/
def frameSet (fr : Frame) (name : String) (v : Value) : Frame :=
  (name, v) :: fr

/-- `Environment::get`: look in the current frame, else recurse into the
parent chain. -/
def envGet : Env → String → Option Value
  | [], _ => none
  | fr :: rest, name =>
    match fr.lookup name with
    | some v => some v
    | none => envGet rest name

/-- `Environment::set`: write into the current frame only. -/
def envSet : Env → String → Value → Env
  | [], name, v => [[(name, v)]]
  | fr :: rest, name, v => frameSet fr name v :: rest

/-- `Environment::extend`: a fresh empty frame whose parent is the given
environment. -/
def envExtend (env : Env) : Env := [] :: env

/-- `Environment::new()`: a single empty root frame. -/
def initialEnv : Env := [[]]

/-! ## Tokenizer (`lexer.rs`)

The Rust tokenizer scans the input with the regex
`(number: -?\d+(\.\d+)?) | (symbol: [^\s()]+) | (lp: \() | (rp: \))`
under leftmost-first alternation; characters matching no alternative
(exactly the whitespace characters) are skipped. -/

def isWs (c : Char) : Bool :=
  c = ' ' || c = '\t' || c = '\n' || c = '\r'

def isDigitCh (c : Char) : Bool :=
  '0' ≤ c && c ≤ '9'

/-- The character class `[^\s()]` of the `symbol` alternative. -/
def isSymChar (c : Char) : Bool :=
  !(isWs c) && c ≠ '(' && c ≠ ')'

def digitsVal (ds : List Char) : Nat :=
  ds.foldl (fun a c => 10 * a + (c.toNat - '0'.toNat)) 0

/-- Match the `number` alternative `-?\d+(\.\d+)?` at the front of `cs`;
on success return the parsed value (as in `str::parse::<f64>`) and the
remaining characters.  The optional fractional group is dropped when no
digit follows the dot, as regex backtracking does. -/
def tryNumber (cs : List Char) : Option (Rat × List Char) :=
  let p := match cs with
    | '-' :: t => (true, t)
    | _ => (false, cs)
  let ds := p.2.takeWhile isDigitCh
  if ds.isEmpty then none
  else
    let rest := p.2.dropWhile isDigitCh
    let q : Rat × List Char :=
      match rest with
      | '.' :: t =>
        let fs := t.takeWhile isDigitCh
        if fs.isEmpty then ((digitsVal ds : Rat), rest)
        else (Rat.divInt (digitsVal ds * 10 ^ fs.length + digitsVal fs) (10 ^ fs.length),
              t.dropWhile isDigitCh)
      | _ => ((digitsVal ds : Rat), rest)
    some (if p.1 then -q.1 else q.1, q.2)

/-- `tokenize`: the regex scan, one token per step.  `none` is fuel
exhaustion only. -/
def tokenizeL : Nat → List Char → Option (List Token)
  | 0, _ => none
  | _ + 1, [] => some []
  | f + 1, c :: rest =>
    if isWs c then tokenizeL f rest
    else if c = '(' then (tokenizeL f rest).map (Token.lparen :: ·)
    else if c = ')' then (tokenizeL f rest).map (Token.rparen :: ·)
    else
      match tryNumber (c :: rest) with
      | some (q, rest') => (tokenizeL f rest').map (Token.number q :: ·)
      | none =>
        let run := (c :: rest).takeWhile isSymChar
        (tokenizeL f ((c :: rest).dropWhile isSymChar)).map
          (Token.symbol (String.mk run) :: ·)

/-! ## Parser (`parser.rs`)

The Rust parser pops tokens from the end of a reversed vector, i.e. it
consumes the token list from the front. -/

/-- Result of `parse_expression`: a parsed value plus remaining tokens, a
`ParseError` message, or fuel exhaustion. -/
inductive POut where
  | ok (v : Value) (rest : List Token)
  | err (msg : String)
  | timeout

mutual

/-- `parse_expression` in `parser.rs`. -/
def parseExpression : Nat → List Token → POut
  | 0, _ => .timeout
  | _ + 1, [] => .err "Unexpected end of input"
  | _ + 1, Token.number n :: rest => .ok (.number n) rest
  | _ + 1, Token.symbol s :: rest => .ok (.symbol s) rest
  | f + 1, Token.lparen :: rest => parseListLoop f rest []
  | _ + 1, Token.rparen :: _ => .err "Unexpected closing parenthesis"

/-- The `while` loop inside `parse_expression`'s open-paren branch:
collect sub-expressions until the matching close paren; running out of
tokens first is the "Unbalanced parentheses" error. -/
def parseListLoop : Nat → List Token → List Value → POut
  | 0, _, _ => .timeout
  | _ + 1, [], _ => .err "Unbalanced parentheses"
  | _ + 1, Token.rparen :: rest, acc => .ok (.list acc.reverse) rest
  | f + 1, ts, acc =>
    match parseExpression f ts with
    | .ok v rest => parseListLoop f rest (v :: acc)
    | .err m => .err m
    | .timeout => .timeout

end

/-- Result of `parse`. -/
inductive ParseResult where
  | ok (v : Value)
  | err (msg : String)
  | timeout

/-- The `while !tokens.is_empty()` loop of `parse`, plus its final
single-expression unwrapping. -/
def parseProgramLoop : Nat → List Token → List Value → ParseResult
  | 0, _, _ => .timeout
  | _ + 1, [], acc =>
    match acc.reverse with
    | [e] => .ok e
    | es => .ok (.list es)
  | f + 1, ts, acc =>
    match parseExpression f ts with
    | .ok v rest => parseProgramLoop f rest (v :: acc)
    | .err m => .err m
    | .timeout => .timeout

/-- `parse` in `parser.rs` (tokenization included; `tokenize` never fails,
so its `unwrap` cannot panic). -/
def parse (fuel : Nat) (source : String) : ParseResult :=
  match tokenizeL fuel source.toList with
  | none => .timeout
  | some toks => parseProgramLoop fuel toks []

/-! ## Evaluator (`program.rs`)

`f64` arithmetic is modelled by exact rational arithmetic, implemented via
`Rat.divInt` on numerator/denominator (the irreducible `Rat.add` etc. would
block kernel reduction).  Division by zero yields `0` here where `f64`
yields an infinity; no claim exercises that case. -/

/-- Outcome of one evaluation: a value plus the updated environment, a Rust
`Err(String)` (the environment as mutated so far is kept for fidelity), a
Rust panic, or fuel exhaustion. -/
inductive Outcome where
  | ok (v : Value) (env : Env)
  | err (msg : String) (env : Env)
  | panic
  | timeout

/-- Outcome of a loop that evaluates a sequence of nodes. -/
inductive SeqOut where
  | ok (vs : List Value) (env : Env)
  | err (msg : String) (env : Env)
  | panic
  | timeout

/-- Outcome of the parameter-binding loop of `call`. -/
inductive BindOut where
  | ok (fr : Frame) (env : Env)
  | err (msg : String) (env : Env)
  | panic
  | timeout

def qadd (a b : Rat) : Rat := Rat.divInt (a.num * b.den + b.num * a.den) (a.den * b.den)
def qsub (a b : Rat) : Rat := Rat.divInt (a.num * b.den - b.num * a.den) (a.den * b.den)
def qmul (a b : Rat) : Rat := Rat.divInt (a.num * b.num) (a.den * b.den)
def qdiv (a b : Rat) : Rat := Rat.divInt (a.num * b.den) (a.den * b.num)

/-- The nine operator symbols of the `"+" | "-" | ... | "eq"` dispatch
pattern in `list`. -/
def binOps : List String :=
  ["+", "-", "*", "/", "gt", "gte", "lt", "lte", "eq"]

/-- One pairwise step of the `try_fold` inside `bin_op`: the operand must be
a `Number`, then the operator symbol selects arithmetic or a comparison
producing `1`/`0`. -/
def binStep (op : Value) (acc : Rat) (node : Value) : Except String Rat :=
  match node with
  | .number n =>
    match op with
    | .symbol s =>
      if s = "+" then .ok (qadd acc n)
      else if s = "-" then .ok (qsub acc n)
      else if s = "*" then .ok (qmul acc n)
      else if s = "/" then .ok (qdiv acc n)
      else if s = "gt" then .ok (if Rat.blt n acc then 1 else 0)
      else if s = "gte" then .ok (if Rat.blt acc n then 0 else 1)
      else if s = "lt" then .ok (if Rat.blt acc n then 1 else 0)
      else if s = "lte" then .ok (if Rat.blt n acc then 0 else 1)
      else if s = "eq" then .ok (if acc = n then 1 else 0)
      else .error ("Invalid operator " ++ s)
    | _ => .error "Operator must be a symbol"
  | _ => .error "Operands must be numbers"

/-- The `try_fold` of `bin_op`: fold `binStep` over the remaining operands,
seeded with the first operand, stopping at the first error. -/
def binFold (op : Value) : Rat → List Value → Except String Rat
  | acc, [] => .ok acc
  | acc, node :: rest =>
    match binStep op acc node with
    | .ok acc' => binFold op acc' rest
    | .error e => .error e

/-- The argument-collection loop of `_fn`: every parameter must be a
`Symbol`. -/
def symArgs : List Value → Except String (List String)
  | [] => .ok []
  | .symbol s :: rest =>
    match symArgs rest with
    | .ok ss => .ok (s :: ss)
    | .error e => .error e
  | _ :: _ => .error "Invalid function argument"

/-- `_fn` in `program.rs`: build a `Lambda` from the parameter list
(`list[1]`) and the body list (`list[2]`); out-of-range indexing is a
panic. -/
def evalFn (l : List Value) (env : Env) : Outcome :=
  match l.get? 1 with
  | none => .panic
  | some (.list argl) =>
    match symArgs argl with
    | .error m => .err m env
    | .ok args =>
      match l.get? 2 with
      | none => .panic
      | some (.list b) => .ok (.lambda args b) env
      | some _ => .err "Invalid function" env
  | some _ => .err "Invalid function" env

mutual

/-- `value` in `program.rs`: dispatch on the node shape. -/
def evalV : Nat → Value → Env → Outcome
  | 0, _, _ => .timeout
  | f + 1, node, env =>
    match node with
    | .symbol s =>
      match envGet env s with
      | some v => .ok v env
      | none => .err ("Unbound symbol " ++ s) env
    | .number n => .ok (.number n) env
    | .list l => evalList f l env
    | _ => .ok .nil env

/-- `list` in `program.rs`: `list.first().unwrap()` panics on an empty
list; a `Symbol` head dispatches on the special forms, any other head runs
the filtering loop over all elements. -/
def evalList : Nat → List Value → Env → Outcome
  | 0, _, _ => .timeout
  | f + 1, l, env =>
    match l.head? with
    | none => .panic
    | some (.symbol s) =>
      if s = "not" then evalNot f l env
      else if s ∈ binOps then evalBinOp f l env
      else if s = "let" then evalLet f l env
      else if s = "fn" then evalFn l env
      else if s = "cond" then evalCond f l env
      else evalCall f s l env
    | some _ =>
      match evalFilter f l env with
      | .ok vs env' => .ok (.list vs) env'
      | .err m e => .err m e
      | .panic => .panic
      | .timeout => .timeout

/-- The loop in `list`'s non-symbol-head branch: evaluate every element in
order, keeping every non-`Nil` result. -/
def evalFilter : Nat → List Value → Env → SeqOut
  | 0, _, _ => .timeout
  | _ + 1, [], env => .ok [] env
  | f + 1, node :: rest, env =>
    match evalV f node env with
    | .ok v env' =>
      match evalFilter f rest env' with
      | .ok vs env'' =>
        .ok (match v with | .nil => vs | _ => v :: vs) env''
      | other => other
    | .err m e => .err m e
    | .panic => .panic
    | .timeout => .timeout

/-- The operand collection of `bin_op`
(`list[1..].iter().map(...).collect::<Result<_,_>>()`): evaluate every
operand in order, stopping at the first error. -/
def evalArgs : Nat → List Value → Env → SeqOut
  | 0, _, _ => .timeout
  | _ + 1, [], env => .ok [] env
  | f + 1, node :: rest, env =>
    match evalV f node env with
    | .ok v env' =>
      match evalArgs f rest env' with
      | .ok vs env'' => .ok (v :: vs) env''
      | other => other
    | .err m e => .err m e
    | .panic => .panic
    | .timeout => .timeout

/-- `bin_op` in `program.rs`. -/
def evalBinOp : Nat → List Value → Env → Outcome
  | 0, _, _ => .timeout
  | f + 1, l, env =>
    if l.length < 3 then .err "Insufficient number of arguments" env
    else
      match l.head? with
      | none => .panic
      | some op =>
        match evalArgs f (l.drop 1) env with
        | .ok vs env' =>
          match vs.head? with
          | some (.number start) =>
            match binFold op start (vs.drop 1) with
            | .ok r => .ok (.number r) env'
            | .error e => .err e env'
          | _ => .err "Operands must be numbers" env'
        | .err m e => .err m e
        | .panic => .panic
        | .timeout => .timeout

/-- `not` in `program.rs`: any failure or non-`Number` result of the
operand becomes the fixed message "Invalid argument" (a panic still
unwinds). -/
def evalNot : Nat → List Value → Env → Outcome
  | 0, _, _ => .timeout
  | f + 1, l, env =>
    if l.length ≠ 2 then .err "Incorrect number of arguments" env
    else
      match l.get? 1 with
      | none => .panic
      | some a =>
        match evalV f a env with
        | .ok (.number n) env' => .ok (.number (if n = 0 then 1 else 0)) env'
        | .ok _ env' => .err "Invalid argument" env'
        | .err _ env' => .err "Invalid argument" env'
        | .panic => .panic
        | .timeout => .timeout

/-- `_let` in `program.rs`: exactly 3 elements, a `Symbol` name that is not
evaluated, the value expression evaluated, the binding written into the
current frame, and `Nil` returned. -/
def evalLet : Nat → List Value → Env → Outcome
  | 0, _, _ => .timeout
  | f + 1, l, env =>
    if l.length ≠ 3 then .err "Invalid number of arguments for let" env
    else
      match l.get? 1 with
      | some (.symbol name) =>
        match l.get? 2 with
        | none => .panic
        | some e =>
          match evalV f e env with
          | .ok v env' => .ok .nil (envSet env' name v)
          | other => other
      | some _ => .err "Invalid let" env
      | none => .panic

/-- `cond` in `program.rs`: the slice `conds[1..len-1]` panics when the
form has fewer than 2 elements; otherwise the clause loop runs over the
middle elements with `conds.last()` as fallback. -/
def evalCond : Nat → List Value → Env → Outcome
  | 0, _, _ => .timeout
  | f + 1, l, env =>
    if l.length < 2 then .panic
    else
      match l.getLast? with
      | none => .panic
      | some fb => condLoop f ((l.drop 1).dropLast) fb env

/-- The clause loop of `cond`: a non-`List` clause is skipped; for a `List`
clause, `cs[0]` is evaluated (indexing panics on an empty clause); a
nonzero `Number` test evaluates and returns `cs[1]` immediately; a zero or
non-`Number` test moves to the next clause; once the clauses are exhausted
the fallback is evaluated directly. -/
def condLoop : Nat → List Value → Value → Env → Outcome
  | 0, _, _, _ => .timeout
  | f + 1, [], fb, env => evalV f fb env
  | f + 1, c :: cs, fb, env =>
    match c with
    | .list csl =>
      match csl.head? with
      | none => .panic
      | some t =>
        match evalV f t env with
        | .ok (.number n) env' =>
          if n ≠ 0 then
            match csl.get? 1 with
            | none => .panic
            | some r => evalV f r env'
          else condLoop f cs fb env'
        | .ok _ env' => condLoop f cs fb env'
        | .err m e => .err m e
        | .panic => .panic
        | .timeout => .timeout
    | _ => condLoop f cs fb env

/-- The parameter-binding loop of `call`: for the `i`-th declared
parameter, evaluate `list[i+1]` in the caller's environment (indexing past
the end of the call form panics) and insert the result into the new frame.
Call-form elements beyond the parameters are never touched. -/
def bindArgs : Nat → List String → Nat → List Value → Frame → Env → BindOut
  | 0, _, _, _, _, _ => .timeout
  | _ + 1, [], _, _, fr, env => .ok fr env
  | f + 1, p :: ps, i, l, fr, env =>
    match l.get? (i + 1) with
    | none => .panic
    | some a =>
      match evalV f a env with
      | .ok v env' => bindArgs f ps (i + 1) l (frameSet fr p v) env'
      | .err m e => .err m e
      | .panic => .panic
      | .timeout => .timeout

/-- `call` in `program.rs`: look the head symbol up in the caller's
environment; a `Lambda` gets a fresh frame extending the caller's
environment as it stands after the arguments were evaluated, and its body,
wrapped as a `List`, is evaluated there; the frame is dropped when the call
returns. -/
def evalCall : Nat → String → List Value → Env → Outcome
  | 0, _, _, _ => .timeout
  | f + 1, s, l, env =>
    match envGet env s with
    | none => .err ("Unbound symbol " ++ s) env
    | some (.lambda params body) =>
      match bindArgs f params 0 l [] env with
      | .ok fr env' =>
        match evalV f (.list body) (fr :: env') with
        | .ok v envB => .ok v envB.tail
        | .err m envB => .err m envB.tail
        | .panic => .panic
        | .timeout => .timeout
      | .err m e => .err m e
      | .panic => .panic
      | .timeout => .timeout
    | some _ => .err ("Not a lambda: " ++ s) env

end

/-- `evaluate` in `program.rs`: parse, then evaluate; any parse failure is
replaced by the fixed message "Something hapened?" (sic). -/
def evaluate (fuel : Nat) (source : String) (env : Env) : Outcome :=
  match parse fuel source with
  | .ok ast => evalV fuel ast env
  | .err _ => .err "Something hapened?" env
  | .timeout => .timeout

/-- Whether a value is `Nil` (the filtering test of `list`'s non-symbol
branch). -/
def Value.isNil : Value → Bool
  | .nil => true
  | _ => false

/-- The pure per-step function of the pairwise fold performed by `bin_op`
on `Number` operands: arithmetic for `+ - * /`, `1`/`0` for the
comparisons.  Matches `binStep` on `Number` arguments with the `Except`
wrapper removed. -/
def opStep (op : String) (acc n : Rat) : Rat :=
  if op = "+" then qadd acc n
  else if op = "-" then qsub acc n
  else if op = "*" then qmul acc n
  else if op = "/" then qdiv acc n
  else if op = "gt" then (if Rat.blt n acc then 1 else 0)
  else if op = "gte" then (if Rat.blt acc n then 0 else 1)
  else if op = "lt" then (if Rat.blt acc n then 1 else 0)
  else if op = "lte" then (if Rat.blt n acc then 0 else 1)
  else if op = "eq" then (if acc = n then 1 else 0)
  else 0

/-! ## Theorems -/

theorem binStep_number (op : String) (hop : op ∈ binOps) (acc n : Rat) :
    binStep (.symbol op) acc (.number n) = .ok (opStep op acc n) := by
  fin_cases hop <;> rfl

theorem binFold_numbers (op : String) (hop : op ∈ binOps) (ns : List Rat) :
    ∀ acc : Rat,
      binFold (.symbol op) acc (ns.map Value.number) =
        .ok (ns.foldl (opStep op) acc) := by
  induction ns with
  | nil => intro acc; rfl
  | cons n rest ih =>
    intro acc
    rw [List.map_cons, binFold, binStep_number op hop, List.foldl_cons]
    exact ih _

/-- C1: for an operator in `{+, -, *, /, gt, gte, lt, lte, eq}` applied to
two or more operands all evaluating to `Number`s, `bin_op` folds
left-to-right with the same operator at every pairwise step, seeded with
the first operand; arithmetic operators give the arithmetic result and
comparisons give `1`/`0` at each step (`opStep`). -/
theorem binop_folds (f : Nat) (op : String) (l : List Value)
    (env env' : Env) (n0 : Rat) (ns : List Rat)
    (hop : op ∈ binOps)
    (hlen : 3 ≤ l.length)
    (hhead : l.head? = some (.symbol op))
    (hargs : evalArgs f (l.drop 1) env = .ok ((n0 :: ns).map Value.number) env') :
    evalBinOp (f + 1) l env = .ok (.number (ns.foldl (opStep op) n0)) env' := by
  rw [evalBinOp, if_neg (by omega), hhead, hargs]
  simp only [List.map_cons, List.head?_cons, List.drop_succ_cons, List.drop_zero]
  rw [binFold_numbers op hop]

/-- Witness for C1: `(+ 1 2 3)` folds to `Number 6` and `(gt 5 3 1)` folds
to `Number 0` (the `1` from `5 > 3` is then compared against `1`). -/
theorem binop_folds_witness :
    evalBinOp 11 [.symbol "+", .number 1, .number 2, .number 3] initialEnv =
      .ok (.number 6) initialEnv ∧
    evalBinOp 11 [.symbol "gt", .number 5, .number 3, .number 1] initialEnv =
      .ok (.number 0) initialEnv := by
  constructor
  · have h := binop_folds 10 "+"
      [.symbol "+", .number 1, .number 2, .number 3]
      initialEnv initialEnv 1 [2, 3] (by decide) (by decide) rfl rfl
    simpa using h
  · have h := binop_folds 10 "gt"
      [.symbol "gt", .number 5, .number 3, .number 1]
      initialEnv initialEnv 5 [3, 1] (by decide) (by decide) rfl rfl
    simpa using h

/-- C2: a call of a user-defined function (head symbol bound to a `Lambda`
and not a special form) binds each declared parameter, by position, to the
evaluated call-site argument (`bindArgs`), builds the binding frame as a
child of the caller's environment as it stands at call time (`fr :: env'`;
the `Lambda` stores no defining environment at all), evaluates the stored
body wrapped as a `List` in that frame, and returns its result. -/
theorem call_dynamic_scope (f : Nat) (s : String) (l body : List Value)
    (params : List String) (fr : Frame) (env env' envB : Env) (v : Value)
    (hhead : l.head? = some (.symbol s))
    (hns : s ∉ "not" :: "let" :: "fn" :: "cond" :: binOps)
    (hlook : envGet env s = some (.lambda params body))
    (hbind : bindArgs f params 0 l [] env = .ok fr env')
    (hbody : evalV f (.list body) (fr :: env') = .ok v envB) :
    evalList (f + 2) l env = .ok v envB.tail := by
  simp only [binOps, List.mem_cons, List.mem_singleton] at hns
  push_neg at hns
  obtain ⟨h1, h2, h3, h4, h5, h6, h7, h8, h9, h10, h11, h12, h13⟩ := hns
  rw [evalList, hhead]
  simp only [if_neg h1, if_neg h2, if_neg h3, if_neg h4,
    List.mem_cons, List.mem_singleton]
  rw [if_neg (by simp [binOps, h5, h6, h7, h8, h9, h10, h11, h12, h13.1])]
  simp only [evalCall, hlook, hbind, hbody]

/-- Witness for C2: with a caller environment whose current frame binds
`a = 5` and whose parent frame holds `f = (fn (x) (+ x a))` next to
`a = 100` (the binding live when the `Lambda` was created), the call
`(f 10)` yields `15 = 10 + 5`: the free `a` resolves through the caller's
chain at call time, not to the definition-time `a = 100` (which would give
`110`). -/
theorem call_dynamic_scope_witness :
    evalList 12 [.symbol "f", .number 10]
      [[("a", .number 5)],
       [("f", .lambda ["x"] [.symbol "+", .symbol "x", .symbol "a"]),
        ("a", .number 100)]] =
    .ok (.number 15)
      [[("a", .number 5)],
       [("f", .lambda ["x"] [.symbol "+", .symbol "x", .symbol "a"]),
        ("a", .number 100)]] := by
  have h := call_dynamic_scope 10 "f" [.symbol "f", .number 10]
    [.symbol "+", .symbol "x", .symbol "a"] ["x"]
    [("x", .number 10)]
    [[("a", .number 5)],
     [("f", .lambda ["x"] [.symbol "+", .symbol "x", .symbol "a"]),
      ("a", .number 100)]]
    [[("a", .number 5)],
     [("f", .lambda ["x"] [.symbol "+", .symbol "x", .symbol "a"]),
      ("a", .number 100)]]
    ([("x", .number 10)] ::
      [[("a", .number 5)],
       [("f", .lambda ["x"] [.symbol "+", .symbol "x", .symbol "a"]),
        ("a", .number 100)]])
    (.number 15)
    rfl (by decide) rfl rfl rfl
  simpa using h

theorem getLast_cons_concat {a b : Value} {l : List Value} :
    (a :: (l ++ [b])).getLast? = some b := by
  rw [← List.cons_append, List.getLast?_concat]

/-- C3: the `cond` form hands the clauses before its final element to the
clause loop in order with the final element as fallback; a pair clause
whose test evaluates to a nonzero `Number` has its result evaluated and
returned immediately, with the remaining clauses never examined; a clause
whose test evaluates to `Number 0` is skipped; when the clauses are
exhausted, the fallback is evaluated directly (it need not be a
test/result pair). -/
theorem cond_first_match :
    (∀ (f : Nat) (mid : List Value) (fb : Value) (env : Env),
      evalCond (f + 1) (.symbol "cond" :: mid ++ [fb]) env =
        condLoop f mid fb env) ∧
    (∀ (f : Nat) (t r : Value) (extra rest : List Value) (fb : Value)
        (env env' : Env) (n : Rat),
      evalV f t env = .ok (.number n) env' → n ≠ 0 →
      condLoop (f + 1) (.list (t :: r :: extra) :: rest) fb env =
        evalV f r env') ∧
    (∀ (f : Nat) (t r : Value) (extra rest : List Value) (fb : Value)
        (env env' : Env),
      evalV f t env = .ok (.number 0) env' →
      condLoop (f + 1) (.list (t :: r :: extra) :: rest) fb env =
        condLoop f rest fb env') ∧
    (∀ (f : Nat) (fb : Value) (env : Env),
      condLoop (f + 1) [] fb env = evalV f fb env) := by
  refine ⟨?_, ?_, ?_, fun f fb env => rfl⟩
  · intro f mid fb env
    rw [evalCond, if_neg (by simp)]
    simp [getLast_cons_concat, List.dropLast_concat]
  · intro f t r extra rest fb env env' n ht hn
    simp only [condLoop, List.head?_cons, ht, if_pos hn]
    rfl
  · intro f t r extra rest fb env env' ht
    simp only [condLoop, List.head?_cons, ht]
    simp

/-- Witness for C3: `(cond ((eq 1 1) 7) 9)`-shaped data reduced one step at
a time: the dispatch step, a matching clause, a non-matching clause, and
the fallback. -/
theorem cond_first_match_witness :
    evalCond 11 [.symbol "cond", .list [.number 1, .number 7], .number 9]
        initialEnv =
      condLoop 10 [.list [.number 1, .number 7]] (.number 9) initialEnv ∧
    condLoop 11 [.list [.number 1, .number 7]] (.number 9) initialEnv =
      evalV 10 (.number 7) initialEnv ∧
    condLoop 11 [.list [.number 0, .number 7]] (.number 9) initialEnv =
      condLoop 10 [] (.number 9) initialEnv ∧
    condLoop 11 [] (.number 9) initialEnv = evalV 10 (.number 9) initialEnv := by
  have w1 := cond_first_match.1 10 [.list [.number 1, .number 7]]
    (.number 9) initialEnv
  have w2 := cond_first_match.2.1 10 (.number 1) (.number 7) [] [] (.number 9)
    initialEnv initialEnv 1 rfl one_ne_zero
  have w3 := cond_first_match.2.2.1 10 (.number 0) (.number 7) [] [] (.number 9)
    initialEnv initialEnv rfl
  have w4 := cond_first_match.2.2.2 10 (.number 9) initialEnv
  exact ⟨by simpa using w1, by simpa using w2, by simpa using w3, by simpa using w4⟩

/-- C4: a `let` form needs exactly 3 elements (else an error); the second
element must be a `Symbol` and is not evaluated (else an error); the third
element is evaluated and bound under that name into the current
environment frame (`envSet` writes only the head frame); and the form
returns `Nil` whatever the bound value is. -/
theorem let_semantics :
    (∀ (f : Nat) (name : String) (e : Value) (env env' : Env) (v : Value),
      evalV f e env = .ok v env' →
      evalLet (f + 1) [.symbol "let", .symbol name, e] env =
        .ok .nil (envSet env' name v)) ∧
    (∀ (f : Nat) (l : List Value) (env : Env), l.length ≠ 3 →
      evalLet (f + 1) l env = .err "Invalid number of arguments for let" env) ∧
    (∀ (f : Nat) (x e : Value) (env : Env), (∀ s, x ≠ .symbol s) →
      evalLet (f + 1) [.symbol "let", x, e] env = .err "Invalid let" env) ∧
    (∀ (fr : Frame) (rest : Env) (name : String) (v : Value),
      envSet (fr :: rest) name v = ((name, v) :: fr) :: rest) := by
  refine ⟨?_, ?_, ?_, fun fr rest name v => rfl⟩
  · intro f name e env env' v he
    rw [evalLet, if_neg (by simp)]
    simp only [List.get?, he]
  · intro f l env hlen
    rw [evalLet, if_pos hlen]
  · intro f x e env hx
    cases x with
    | symbol s => exact absurd rfl (hx s)
    | number n => rw [evalLet, if_neg (by simp)]; simp only [List.get?]
    | list l => rw [evalLet, if_neg (by simp)]; simp only [List.get?]
    | nil => rw [evalLet, if_neg (by simp)]; simp only [List.get?]
    | lambda a b => rw [evalLet, if_neg (by simp)]; simp only [List.get?]

/-- Witness for C4: `(let b 10)` binds `b` in the current frame and
returns `Nil`; `(let b)` is an arity error; `(let 1 2)` is an invalid
`let`; `envSet` writes the head frame. -/
theorem let_semantics_witness :
    evalLet 11 [.symbol "let", .symbol "b", .number 10] initialEnv =
      .ok Value.nil [[("b", .number 10)]] ∧
    evalLet 11 [.symbol "let", .symbol "b"] initialEnv =
      .err "Invalid number of arguments for let" initialEnv ∧
    evalLet 11 [.symbol "let", .number 1, .number 2] initialEnv =
      .err "Invalid let" initialEnv ∧
    envSet [[("a", Value.nil)], []] "b" (.number 10) =
      [[("b", .number 10), ("a", Value.nil)], []] := by
  have w1 := let_semantics.1 10 "b" (.number 10) initialEnv initialEnv
    (.number 10) rfl
  have w2 := let_semantics.2.1 10 [.symbol "let", .symbol "b"] initialEnv
    (by simp)
  have w3 := let_semantics.2.2.1 10 (.number 1) (.number 2) initialEnv
    (fun s h => by cases h)
  have w4 := let_semantics.2.2.2 [("a", Value.nil)] [[]] "b" (.number 10)
  exact ⟨by simpa using w1, by simpa using w2, by simpa using w3, w4⟩

/-- C5 counterexample: the claim says a `ParseError`'s description is the
message `evaluate` returns for malformed input and that a runtime error in
`not`'s operand propagates unchanged; in fact `evaluate` replaces every
parse failure with the fixed string "Something hapened?" and `not`
replaces any operand failure with "Invalid argument". -/
theorem error_propagation_counterexample :
    evaluate 100 ")" initialEnv = .err "Something hapened?" initialEnv ∧
    parse 100 ")" = .err "Unexpected closing parenthesis" ∧
    "Something hapened?" ≠ "Unexpected closing parenthesis" ∧
    evaluate 100 "(not nosuch)" initialEnv = .err "Invalid argument" initialEnv ∧
    evaluate 100 "nosuch" initialEnv =
      .err "Unbound symbol nosuch" initialEnv ∧
    "Invalid argument" ≠ "Unbound symbol nosuch" :=
  ⟨rfl, rfl, by decide, rfl, rfl, by decide⟩

/-- C5 amended: when parsing succeeds, `evaluate` returns the evaluator's
outcome unchanged (so every runtime failure propagates out of `evaluate`
with its own description), but a parse failure is reported as the fixed
message "Something hapened?" (the `ParseError` description is dropped),
and a failure while evaluating `not`'s operand is reported as
"Invalid argument" instead of the operand's own error. -/
theorem error_propagation_amended :
    (∀ (fuel : Nat) (src : String) (env : Env) (ast : Value),
      parse fuel src = .ok ast → evaluate fuel src env = evalV fuel ast env) ∧
    (∀ (fuel : Nat) (src : String) (env : Env) (m : String),
      parse fuel src = .err m →
      evaluate fuel src env = .err "Something hapened?" env) ∧
    (∀ (f : Nat) (a : Value) (env env' : Env) (m : String),
      evalV f a env = .err m env' →
      evalNot (f + 1) [.symbol "not", a] env = .err "Invalid argument" env') := by
  refine ⟨?_, ?_, ?_⟩
  · intro fuel src env ast h
    unfold evaluate
    rw [h]
  · intro fuel src env m h
    unfold evaluate
    rw [h]
  · intro f a env env' m h
    rw [evalNot, if_neg (by simp)]
    simp only [List.get?, h]

/-- Witness for C5's amended claim: a well-formed runtime error
propagates, `")"` yields the substituted parse message, and an unbound
symbol inside `not` yields "Invalid argument". -/
theorem error_propagation_amended_witness :
    evaluate 100 "(+ 1 2)" initialEnv =
      evalV 100 (.list [.symbol "+", .number 1, .number 2]) initialEnv ∧
    evaluate 100 ")" initialEnv = .err "Something hapened?" initialEnv ∧
    evalNot 100 [.symbol "not", .symbol "nosuch"] initialEnv =
      .err "Invalid argument" initialEnv := by
  have w1 := error_propagation_amended.1 100 "(+ 1 2)" initialEnv
    (.list [.symbol "+", .number 1, .number 2]) rfl
  have w2 := error_propagation_amended.2.1 100 ")" initialEnv
    "Unexpected closing parenthesis" rfl
  have w3 := error_propagation_amended.2.2 99 (.symbol "nosuch") initialEnv
    initialEnv "Unbound symbol nosuch" rfl
  exact ⟨w1, w2, by simpa using w3⟩

theorem evalFilter_filters (f : Nat) :
    ∀ (l : List Value) (env : Env) (vs : List Value) (env' : Env),
      evalArgs f l env = .ok vs env' →
      evalFilter f l env = .ok (vs.filter (fun v => !v.isNil)) env' := by
  induction f with
  | zero =>
    intro l env vs env' h
    simp [evalArgs] at h
  | succ f ih =>
    intro l env vs env' h
    cases l with
    | nil =>
      rw [evalArgs] at h
      cases h
      rfl
    | cons node rest =>
      rw [evalArgs] at h
      rw [evalFilter]
      cases hv : evalV f node env with
      | ok v env1 =>
        simp only [hv] at h
        cases ha : evalArgs f rest env1 with
        | ok vs2 env2 =>
          simp only [ha] at h
          cases h
          simp only [hv, ih _ _ _ _ ha]
          cases v <;> simp [Value.isNil]
        | err m e => simp only [ha] at h; injection h
        | panic => simp only [ha] at h; injection h
        | timeout => simp only [ha] at h; injection h
      | err m e => simp only [hv] at h; injection h
      | panic => simp only [hv] at h; injection h
      | timeout => simp only [hv] at h; injection h

/-- C6: a `List` whose head is not a `Symbol` evaluates every element in
order and returns the `List` of the non-`Nil` results, the `Nil` results
being dropped; in particular the three-expression program
`"(let b 10) (let h 14) (/ (* b h) 2)"` evaluates to a `List` holding only
`Number 70`, the two `Nil`s of the `let`s having been elided. -/
theorem list_drops_nil :
    (∀ (f : Nat) (l : List Value) (env : Env) (vs : List Value) (env' : Env),
      (∀ s, l.head? ≠ some (.symbol s)) → l ≠ [] →
      evalArgs f l env = .ok vs env' →
      evalList (f + 1) l env =
        .ok (.list (vs.filter (fun v => !v.isNil))) env') ∧
    evaluate 1000 "(let b 10) (let h 14) (/ (* b h) 2)" initialEnv =
      .ok (.list [.number 70]) [[("h", .number 14), ("b", .number 10)]] := by
  constructor
  · intro f l env vs env' hhead hne hargs
    cases l with
    | nil => exact absurd rfl hne
    | cons node rest =>
      cases node with
      | symbol s => exact absurd rfl (hhead s)
      | number n =>
        rw [evalList]
        simp only [List.head?_cons, evalFilter_filters f _ _ _ _ hargs]
      | list l2 =>
        rw [evalList]
        simp only [List.head?_cons, evalFilter_filters f _ _ _ _ hargs]
      | nil =>
        rw [evalList]
        simp only [List.head?_cons, evalFilter_filters f _ _ _ _ hargs]
      | lambda a b =>
        rw [evalList]
        simp only [List.head?_cons, evalFilter_filters f _ _ _ _ hargs]
  · rfl

/-- Witness for C6: a bare list headed by a number, containing a `Nil`
element, keeps only the non-`Nil` results. -/
theorem list_drops_nil_witness :
    evalList 11 [.number 7, Value.nil, .number 8] initialEnv =
      .ok (.list [.number 7, .number 8]) initialEnv := by
  have h := list_drops_nil.1 10 [.number 7, Value.nil, .number 8] initialEnv
    [.number 7, Value.nil, .number 8] initialEnv
    (fun s h => by simp at h) (by simp) rfl
  simpa using h

/-- C7: bindings made through `let` persist across successive `evaluate`
calls that share one environment: after `(let b 10)` and `(let h 14)`,
`(/ (* b h) 2)` yields `Number 70`, the first two calls each returning
`Nil`. -/
theorem bindings_persist :
    evaluate 1000 "(let b 10)" initialEnv = .ok Value.nil [[("b", .number 10)]] ∧
    evaluate 1000 "(let h 14)" [[("b", .number 10)]] =
      .ok Value.nil [[("h", .number 14), ("b", .number 10)]] ∧
    evaluate 1000 "(/ (* b h) 2)" [[("h", .number 14), ("b", .number 10)]] =
      .ok (.number 70) [[("h", .number 14), ("b", .number 10)]] :=
  ⟨rfl, rfl, rfl⟩

theorem parse_err_msgs_aux (f : Nat) :
    (∀ (ts : List Token) (acc : List Value) (m : String),
      parseListLoop f ts acc = .err m →
      m = "Unexpected closing parenthesis" ∨ m = "Unbalanced parentheses") ∧
    (∀ (ts : List Token) (m : String), ts ≠ [] →
      parseExpression f ts = .err m →
      m = "Unexpected closing parenthesis" ∨ m = "Unbalanced parentheses") := by
  induction f with
  | zero =>
    constructor
    · intro ts acc m h; injection h
    · intro ts m _ h; injection h
  | succ f ih =>
    constructor
    · intro ts acc m h
      match ts with
      | [] =>
        rw [parseListLoop] at h
        injection h with h
        exact Or.inr h.symm
      | Token.rparen :: rest =>
        rw [parseListLoop] at h
        injection h
      | Token.number n :: rest =>
        simp only [parseListLoop] at h
        cases hp : parseExpression f (Token.number n :: rest) with
        | ok v rest' => simp only [hp] at h; exact ih.1 _ _ _ h
        | err m' =>
          simp only [hp] at h
          injection h with h
          exact h ▸ ih.2 _ _ (by simp) hp
        | timeout => simp only [hp] at h; injection h
      | Token.symbol s :: rest =>
        simp only [parseListLoop] at h
        cases hp : parseExpression f (Token.symbol s :: rest) with
        | ok v rest' => simp only [hp] at h; exact ih.1 _ _ _ h
        | err m' =>
          simp only [hp] at h
          injection h with h
          exact h ▸ ih.2 _ _ (by simp) hp
        | timeout => simp only [hp] at h; injection h
      | Token.lparen :: rest =>
        simp only [parseListLoop] at h
        cases hp : parseExpression f (Token.lparen :: rest) with
        | ok v rest' => simp only [hp] at h; exact ih.1 _ _ _ h
        | err m' =>
          simp only [hp] at h
          injection h with h
          exact h ▸ ih.2 _ _ (by simp) hp
        | timeout => simp only [hp] at h; injection h
    · intro ts m hne h
      match ts with
      | [] => exact absurd rfl hne
      | Token.number n :: rest => rw [parseExpression] at h; injection h
      | Token.symbol s :: rest => rw [parseExpression] at h; injection h
      | Token.rparen :: rest =>
        rw [parseExpression] at h
        injection h with h
        exact Or.inl h.symm
      | Token.lparen :: rest =>
        rw [parseExpression] at h
        exact ih.1 _ _ _ h

theorem parseProgramLoop_err_msgs (f : Nat) :
    ∀ (ts : List Token) (acc : List Value) (m : String),
      parseProgramLoop f ts acc = .err m →
      m = "Unexpected closing parenthesis" ∨ m = "Unbalanced parentheses" := by
  induction f with
  | zero => intro ts acc m h; injection h
  | succ f ih =>
    intro ts acc m h
    match ts with
    | [] =>
      rw [parseProgramLoop] at h
      cases hacc : acc.reverse with
      | nil => simp only [hacc] at h; injection h
      | cons e es =>
        cases es with
        | nil => simp only [hacc] at h; injection h
        | cons e2 es2 => simp only [hacc] at h; injection h
    | t :: rest =>
      have hsplit : parseProgramLoop (f + 1) (t :: rest) acc =
          match parseExpression f (t :: rest) with
          | .ok v r => parseProgramLoop f r (v :: acc)
          | .err m' => .err m'
          | .timeout => .timeout := by
        cases t <;> rfl
      rw [hsplit] at h
      cases hp : parseExpression f (t :: rest) with
      | ok v rest' => simp only [hp] at h; exact ih _ _ _ h
      | err m' =>
        simp only [hp] at h
        injection h with h
        exact h ▸ (parse_err_msgs_aux f).2 _ _ (by simp) hp
      | timeout => simp only [hp] at h; injection h

/-- C8: `parse ")"` fails with "Unexpected closing parenthesis" and
`parse "(+ 1"` fails with "Unbalanced parentheses"; in general a stray
close-paren token fails the former way, exhausting the tokens inside an
open list fails the latter way, and every failure `parse` can produce
carries one of exactly these two descriptions (no ahead-of-time balance
counting produces any other failure). -/
theorem parse_error_behavior :
    parse 100 ")" = .err "Unexpected closing parenthesis" ∧
    parse 100 "(+ 1" = .err "Unbalanced parentheses" ∧
    (∀ (f : Nat) (ts : List Token),
      parseExpression (f + 1) (Token.rparen :: ts) =
        .err "Unexpected closing parenthesis") ∧
    (∀ (f : Nat) (acc : List Value),
      parseListLoop (f + 1) [] acc = .err "Unbalanced parentheses") ∧
    (∀ (fuel : Nat) (src : String) (m : String), parse fuel src = .err m →
      m = "Unexpected closing parenthesis" ∨ m = "Unbalanced parentheses") := by
  refine ⟨rfl, rfl, fun f ts => rfl, fun f acc => rfl, ?_⟩
  intro fuel src m h
  unfold parse at h
  cases ht : tokenizeL fuel src.toList with
  | none => simp only [ht] at h; injection h
  | some toks =>
    simp only [ht] at h
    exact parseProgramLoop_err_msgs fuel _ _ _ h

/-- Witness for C8: the failure of `parse ")"` carries one of the two
stated descriptions. -/
theorem parse_error_behavior_witness :
    "Unexpected closing parenthesis" = "Unexpected closing parenthesis" ∨
      "Unexpected closing parenthesis" = "Unbalanced parentheses" :=
  parse_error_behavior.2.2.2.2 100 ")" "Unexpected closing parenthesis" rfl

theorem bindArgs_ignores_extra (f : Nat) :
    ∀ (params : List String) (i : Nat) (l extra : List Value)
      (fr : Frame) (env : Env),
      i + params.length + 1 ≤ l.length →
      bindArgs f params i (l ++ extra) fr env = bindArgs f params i l fr env := by
  induction f with
  | zero => intros; rfl
  | succ f ih =>
    intro params i l extra fr env hlen
    cases params with
    | nil => rfl
    | cons p ps =>
      rw [bindArgs, bindArgs]
      have hi : i + 1 < l.length := by
        simp only [List.length_cons] at hlen; omega
      rw [List.get?_append hi]
      cases hx : l.get? (i + 1) with
      | none => rfl
      | some a =>
        cases hv : evalV f a env with
        | ok v env1 =>
          simp only [hv]
          exact ih ps (i + 1) l extra (frameSet fr p v) env1
            (by simp only [List.length_cons] at hlen; omega)
        | err m e => simp only [hv]
        | panic => simp only [hv]
        | timeout => simp only [hv]

/-- C9: the argument count of a call is never validated against the
parameter count: appending extra arguments past the declared parameters
leaves the call's outcome unchanged (they are neither evaluated nor
examined), a binding loop that reaches a parameter whose argument index is
past the end of the call form panics immediately, and a panicking binding
loop makes the whole call panic rather than return an error value. -/
theorem call_arity_unchecked :
    (∀ (f : Nat) (s : String) (l extra : List Value) (env : Env)
        (params : List String) (body : List Value),
      envGet env s = some (.lambda params body) →
      params.length + 1 ≤ l.length →
      evalCall (f + 1) s (l ++ extra) env = evalCall (f + 1) s l env) ∧
    (∀ (f : Nat) (p : String) (ps : List String) (i : Nat) (l : List Value)
        (fr : Frame) (env : Env), l.length ≤ i + 1 →
      bindArgs (f + 1) (p :: ps) i l fr env = .panic) ∧
    (∀ (f : Nat) (s : String) (l : List Value) (env : Env)
        (params : List String) (body : List Value),
      envGet env s = some (.lambda params body) →
      bindArgs f params 0 l [] env = .panic →
      evalCall (f + 1) s l env = .panic) := by
  refine ⟨?_, ?_, ?_⟩
  · intro f s l extra env params body hlook hlen
    rw [evalCall, evalCall]
    simp only [hlook, bindArgs_ignores_extra f params 0 l extra [] env
      (by omega)]
  · intro f p ps i l fr env hlen
    rw [bindArgs, List.get?_eq_none.2 hlen]
  · intro f s l env params body hlook hbind
    rw [evalCall]
    simp only [hlook, hbind]

/-- Witness for C9: with `g = (fn (x y) (+ x y))`, the call form
`(g 1 2 boom)` behaves exactly like `(g 1 2)` (the unbound `boom` is never
evaluated), and the call form `(g 1)` panics. -/
theorem call_arity_unchecked_witness :
    evalCall 11 "g"
        ([.symbol "g", .number 1, .number 2] ++ [.symbol "boom"])
        [[("g", .lambda ["x", "y"] [.symbol "+", .symbol "x", .symbol "y"])]] =
      evalCall 11 "g" [.symbol "g", .number 1, .number 2]
        [[("g", .lambda ["x", "y"] [.symbol "+", .symbol "x", .symbol "y"])]] ∧
    bindArgs 11 ["y"] 1 [.symbol "g", .number 1] [("x", .number 1)]
        [[("g", .lambda ["x", "y"] [.symbol "+", .symbol "x", .symbol "y"])]] =
      .panic ∧
    evalCall 11 "g" [.symbol "g", .number 1]
        [[("g", .lambda ["x", "y"] [.symbol "+", .symbol "x", .symbol "y"])]] =
      .panic := by
  have w1 := call_arity_unchecked.1 10 "g"
    [.symbol "g", .number 1, .number 2] [.symbol "boom"]
    [[("g", .lambda ["x", "y"] [.symbol "+", .symbol "x", .symbol "y"])]]
    ["x", "y"] [.symbol "+", .symbol "x", .symbol "y"] rfl (by decide)
  have w2 := call_arity_unchecked.2.1 10 "y" [] 1 [.symbol "g", .number 1]
    [("x", .number 1)]
    [[("g", .lambda ["x", "y"] [.symbol "+", .symbol "x", .symbol "y"])]]
    (by decide)
  have w3 := call_arity_unchecked.2.2 10 "g" [.symbol "g", .number 1]
    [[("g", .lambda ["x", "y"] [.symbol "+", .symbol "x", .symbol "y"])]]
    ["x", "y"] [.symbol "+", .symbol "x", .symbol "y"] rfl rfl
  exact ⟨by simpa using w1, by simpa using w2, by simpa using w3⟩

/-- C10: evaluating an empty `List` is not total: the head is taken with
an `unwrap` on `None`, so both the input `"()"` and the empty input (which
parses to an empty `List`) make `evaluate` panic instead of returning a
value or an error. -/
theorem empty_list_panics :
    evaluate 1000 "()" initialEnv = .panic ∧
    evaluate 1000 "" initialEnv = .panic ∧
    (∀ (f : Nat) (env : Env), evalList (f + 1) [] env = .panic) :=
  ⟨rfl, rfl, fun f env => rfl⟩

end Lisp

